import Mathlib

/-!
A shallow embedding of the bobg/certdir repository: the `Run` coordinator
(directory polling, change detection, preemptive consumer invocations), the
`timePair` change fingerprint, and the channel-producer variants `FromDir`,
`FromCommand` and the certs-package `Times`.

Go values are modelled as follows: `time.Time` becomes `Nat` (with `.Equal`
as `=` and `.Before` as `<`), a Go `error` becomes `Option GoErr` (with
`none` for nil), `tls.Certificate` becomes an opaque `Nat` payload.
The environment of one loop iteration (results of stat/read/parse calls,
which arm of a `select` fired, whether a context was cancelled at an
observation point) is supplied as explicit input data, so each loop body is
a pure step function on explicit state.
-/

namespace Certdir

/-- A Go error value: `context.Canceled`, an `errors.Wrap` node carrying a
message, an `errors.Join` node, or an arbitrary distinct error identified by
a number. A nil-able Go `error` is `Option GoErr`. -/
inductive GoErr where
  | canceled : GoErr
  | wrap : String → GoErr → GoErr
  | joinErr : GoErr → GoErr → GoErr
  | other : Nat → GoErr
deriving DecidableEq, Repr

/-- Go `errors.Is(e, t)`: `t` occurs in `e`'s unwrap tree. -/
def errIs : GoErr → GoErr → Bool
  | GoErr.wrap m inner, t => decide (GoErr.wrap m inner = t) || errIs inner t
  | GoErr.joinErr a b, t => decide (GoErr.joinErr a b = t) || errIs a t || errIs b t
  | e, t => decide (e = t)

/-- `errors.Is(e, context.Canceled)`, the test `Run` applies to the drained
result of a preempted invocation. -/
def GoErr.isCanceled (e : GoErr) : Bool := errIs e GoErr.canceled

/-- `errors.Wrap` from github.com/bobg/errors: wrapping nil yields nil. -/
def wrapErr (e : Option GoErr) (msg : String) : Option GoErr :=
  e.map (GoErr.wrap msg)

/-- Go `errors.Join` restricted to two arguments: nils are dropped. -/
def joinErrs : Option GoErr → Option GoErr → Option GoErr
  | none, b => b
  | some a, none => some a
  | some a, some b => some (GoErr.joinErr a b)

/-- `time.Time` modelled as a natural number; `.Equal` is `=`, `.Before`
is `<`. -/
abbrev GoTime := Nat

/-- The modification-time fingerprint of the two watched files, as in the
source's `type timePair struct { cert, key time.Time }`. -/
structure timePair where
  cert : GoTime
  key : GoTime
deriving DecidableEq, Repr

/-- `func (p timePair) equal(other timePair) bool`: component-wise
`time.Time.Equal` on both fields. -/
def timePair.equal (p other : timePair) : Bool :=
  decide (p.cert = other.cert) && decide (p.key = other.key)

/-- A loaded `tls.Certificate`, opaque to the coordinator. -/
abbrev Cert := Nat

/-- Which arm of `Run`'s three-way `select` fired: the outer context's
`Done` channel, the poll ticker, or the current invocation's result channel
delivering the consumer's return value `r`. -/
inductive Sel where
  | ctxDone : Sel
  | tick : Sel
  | fDone : Option GoErr → Sel
deriving DecidableEq, Repr

/-- The environment of one iteration of `Run`'s loop: the result of
`check(dir)`, the value a blocking `<-errCh` in the drain path would
deliver, whether the outer `ctx.Err()` is non-nil at the drain inspection,
the result of `tls.LoadX509KeyPair`, and which `select` arm fired.
`drainWasPending` is ghost information with no effect on execution: it
records whether the drained result was already sitting in the (buffered)
result channel before `fcancel` was called, i.e. whether the invocation had
completed on its own before being preempted. -/
structure Iter where
  probe : Except GoErr timePair
  drainResult : Option GoErr
  drainWasPending : Bool
  ctxDoneAtDrain : Bool
  load : Except GoErr Cert
  sel : Sel
deriving Repr

/-- The coordinator state carried between iterations of `Run`'s loop:
the `last` observed timestamp pair and whether `errCh` is non-nil
(an invocation has been started and its completion not yet consumed). -/
structure RunState where
  last : timePair
  live : Bool
deriving DecidableEq, Repr

/-- Observable events of one `Run` iteration, in execution order:
`cancelOld` is the `fcancel()` preempting the current invocation,
`recvDrain r p` is the blocking `<-errCh` in the drain path receiving the
completion result `r` (with ghost flag `p` as in `Iter.drainWasPending`),
`loadCall` is the call to `tls.LoadX509KeyPair`, `start c` launches a new
consumer invocation with certificate `c`, and `recvSel r` is the `select`
observing the current invocation's completion result `r`. -/
inductive Ev where
  | cancelOld : Ev
  | recvDrain : Option GoErr → Bool → Ev
  | loadCall : Ev
  | start : Cert → Ev
  | recvSel : Option GoErr → Ev
deriving DecidableEq, Repr

/-- Outcome of one `Run` iteration: return from `Run` with a Go error value
(possibly nil), or continue looping in a new state. -/
inductive StepRes where
  | ret : Option GoErr → StepRes
  | cont : RunState → StepRes
deriving DecidableEq, Repr

/-- The error `Run` returns when `check(dir)` fails:
`errors.Wrap(err, "checking directory")`. -/
def wrapChk (e : GoErr) : GoErr := GoErr.wrap "checking directory" e

/-- The error `Run` returns when `tls.LoadX509KeyPair` fails:
`errors.Wrapf(err, "loading cert and key from %s and %s", ...)` with the
formatted paths elided. -/
def wrapLoad (e : GoErr) : GoErr := GoErr.wrap "loading cert and key" e

/-- The trailing `select` of `Run`'s loop body. `ctx.Done()` returns
`ctx.Err()` (cancellation); the ticker continues the loop; `errCh`
delivering a result returns it unchanged. When no invocation is live,
`errCh` is nil and receiving from it can never fire, so an `fDone`
resolution is normalized to the ticker's behavior. -/
def runSelect (st : RunState) (it : Iter) : List Ev × StepRes :=
  match it.sel with
  | Sel.ctxDone => ([], StepRes.ret (some GoErr.canceled))
  | Sel.tick => ([], StepRes.cont st)
  | Sel.fDone r =>
      if st.live then ([Ev.recvSel r], StepRes.ret r) else ([], StepRes.cont st)

/-- The load-and-start tail of `Run`'s change branch: call
`tls.LoadX509KeyPair` (returning the wrapped error on failure), start a new
invocation of `f` with the loaded certificate, set `last = next`, then fall
through to the `select`. -/
def loadAndStart (next : timePair) (it : Iter) : List Ev × StepRes :=
  match it.load with
  | Except.error e => ([Ev.loadCall], StepRes.ret (some (wrapLoad e)))
  | Except.ok c =>
      let p := runSelect { last := next, live := true } it
      (Ev.loadCall :: Ev.start c :: p.1, p.2)

/-- One iteration of `Run`'s `for` loop, translated from the source:
`check(dir)` (failure returns the wrapped error); if the probed pair
differs from `last` then drain any current invocation (`fcancel()`;
`err := <-errCh`; return `err` unchanged unless it is nil or satisfies
`errors.Is(err, context.Canceled)` with the outer `ctx.Err()` still nil),
load the certificate and start a fresh invocation; finally the three-way
`select`. -/
def runStep (st : RunState) (it : Iter) : List Ev × StepRes :=
  match it.probe with
  | Except.error e => ([], StepRes.ret (some (wrapChk e)))
  | Except.ok next =>
      if next.equal st.last then
        runSelect st it
      else
        if st.live then
          match it.drainResult with
          | some e =>
              if !e.isCanceled || it.ctxDoneAtDrain then
                ([Ev.cancelOld, Ev.recvDrain (some e) it.drainWasPending],
                 StepRes.ret (some e))
              else
                let p := loadAndStart next it
                (Ev.cancelOld :: Ev.recvDrain (some e) it.drainWasPending :: p.1, p.2)
          | none =>
              let p := loadAndStart next it
              (Ev.cancelOld :: Ev.recvDrain none it.drainWasPending :: p.1, p.2)
        else
          loadAndStart next it

/-- Run's whole loop over a finite schedule of iteration environments:
the concatenated event trace, and `some r` when `Run` returned `r`
within the schedule (`none` when it is still looping). -/
def runTrace (st : RunState) : List Iter → List Ev × Option (Option GoErr)
  | [] => ([], none)
  | it :: rest =>
      match runStep st it with
      | (evs, StepRes.ret r) => (evs, some r)
      | (evs, StepRes.cont st2) =>
          let p := runTrace st2 rest
          (evs ++ p.1, p.2)

/-- `Run`'s initial state: `last` is the zero `timePair` and `errCh` is
nil. -/
def runInit : RunState := { last := { cert := 0, key := 0 }, live := false }

/-- Single-flight discipline checker for an event trace, parameterized by
the number `k` of live (started, completion not yet consumed) invocations:
a completion may be received only when exactly one invocation is live, and
a certificate load or a fresh start may occur only when none is. -/
def chkEvents : Nat → List Ev → Bool
  | _, [] => true
  | k, Ev.start _ :: rest => decide (k = 0) && chkEvents 1 rest
  | k, Ev.loadCall :: rest => decide (k = 0) && chkEvents 0 rest
  | k, Ev.recvDrain _ _ :: rest => decide (k = 1) && chkEvents 0 rest
  | k, Ev.recvSel _ :: rest => decide (k = 1) && chkEvents 0 rest
  | k, Ev.cancelOld :: rest => chkEvents k rest

/-- Number of live invocations after processing an event list, starting
from `k` live. -/
def liveCount : Nat → List Ev → Nat
  | k, [] => k
  | k, Ev.start _ :: rest => liveCount (k + 1) rest
  | k, Ev.recvDrain _ _ :: rest => liveCount (k - 1) rest
  | k, Ev.recvSel _ :: rest => liveCount (k - 1) rest
  | k, Ev.loadCall :: rest => liveCount k rest
  | k, Ev.cancelOld :: rest => liveCount k rest

/-- Number of invocation starts in an event trace. -/
def starts (l : List Ev) : Nat :=
  l.countP fun e => match e with | Ev.start _ => true | _ => false

/-- Number of invocation completions received (drain path or select) in an
event trace. -/
def recvs (l : List Ev) : Nat :=
  l.countP fun e =>
    match e with | Ev.recvDrain _ _ => true | Ev.recvSel _ => true | _ => false

/-- The live-invocation count of a `RunState`: 1 when `errCh` is non-nil. -/
def RunState.cnt (st : RunState) : Nat := if st.live then 1 else 0

/-- State of the polling goroutine of the certdir-package `FromDir`
(part of the repository's channel-producer variant): the last observed
modification times of the two files. -/
structure FromDirState where
  lastCertTime : GoTime
  lastKeyTime : GoTime
deriving DecidableEq, Repr

/-- Environment of one iteration of the certdir `FromDir` goroutine loop:
the result of `Times(dir)`, of the two `os.ReadFile` calls and of
`tls.X509KeyPair`, and whether `ctx.Done()` was the resolved arm of the
send `select` and of the interval-timer `select`. -/
structure FromDirIter where
  times : Except GoErr (GoTime × GoTime)
  readCert : Except GoErr Nat
  readKey : Except GoErr Nat
  keyPair : Except GoErr Cert
  sendCtxDone : Bool
  timerCtxDone : Bool
deriving Repr

/-- Outcome of one certdir `FromDir` goroutine iteration: `ret` means the
goroutine returns (running the deferred `close(ch)`), `cont` means the
`for` loop continues. -/
inductive FromDirRes where
  | ret : FromDirRes
  | cont : FromDirState → FromDirRes
deriving DecidableEq, Repr

/-- One iteration of the certdir-package `FromDir` goroutine loop,
translated from the source. The output pairs the value of `*errptr` after
the iteration (`none` when it was not written) with the loop outcome.
Note the two `ctx.Done()` select arms in the source assign `*errptr` but do
not `return`: the loop continues in both cases. -/
def fromDirStep (st : FromDirState) (it : FromDirIter) :
    Option GoErr × FromDirRes :=
  match it.times with
  | Except.error e => (some (GoErr.wrap "checking times" e), FromDirRes.ret)
  | Except.ok (newCertTime, newKeyTime) =>
      if !decide (st.lastCertTime = newCertTime)
          || !decide (st.lastKeyTime = newKeyTime) then
        match it.readCert with
        | Except.error e => (some (GoErr.wrap "reading certfile" e), FromDirRes.ret)
        | Except.ok _ =>
            match it.readKey with
            | Except.error e => (some (GoErr.wrap "reading keyfile" e), FromDirRes.ret)
            | Except.ok _ =>
                match it.keyPair with
                | Except.error e =>
                    (some (GoErr.wrap "creating certificate object" e), FromDirRes.ret)
                | Except.ok _ =>
                    let errAfterSend : Option GoErr :=
                      if it.sendCtxDone then
                        some (GoErr.wrap "sending certificate on channel" GoErr.canceled)
                      else none
                    let st2 : FromDirState :=
                      { lastCertTime := newCertTime, lastKeyTime := newKeyTime }
                    (if it.timerCtxDone then some GoErr.canceled else errAfterSend,
                     FromDirRes.cont st2)
      else
        (if it.timerCtxDone then some GoErr.canceled else none, FromDirRes.cont st)

/-- Environment of one iteration of the `FromCommand` producing-goroutine
loop (both package variants have the same loop body): the JSON decode
result, the `tls.X509KeyPair` parse result, and whether `ctx.Done()` won
the send `select`. -/
structure FCIter where
  decode : Except GoErr (Nat × Nat)
  keyPair : Except GoErr Cert
  ctxDone : Bool
deriving Repr

/-- Outcome of one `FromCommand` goroutine iteration: `ret e` means the
goroutine terminates with `*errptr = e`; `sent` means the certificate was
delivered and the loop continues. -/
inductive FCRes where
  | ret : Option GoErr → FCRes
  | sent : FCRes
deriving DecidableEq, Repr

/-- One iteration of the `FromCommand` producing-goroutine loop, translated
from the source: a decode failure or a key-pair parse failure terminates
the goroutine with the wrapped error; otherwise the certificate send races
`ctx.Done()`. -/
def fromCommandStep (it : FCIter) : FCRes :=
  match it.decode with
  | Except.error e => FCRes.ret (some (GoErr.wrap "decoding JSON" e))
  | Except.ok _ =>
      match it.keyPair with
      | Except.error e => FCRes.ret (some (GoErr.wrap "creating key pair" e))
      | Except.ok _ =>
          if it.ctxDone then FCRes.ret (some GoErr.canceled) else FCRes.sent

/-- The release function returned by the certdir-package `FromCommand`:
`err := cmd.Wait(); if *errptr != nil { return *errptr }; return err`,
as a function of the `cmd.Wait()` result and the goroutine's recorded
processing error. -/
def fromCommandWait (waitErr procErr : Option GoErr) : Option GoErr :=
  match procErr with
  | some e => some e
  | none => waitErr

/-- The release function returned by the certs-package `FromCommand`:
`err := cmd.Wait(); err = errors.Wrapf(err, "waiting for %s", cmd);
if *errptr != nil { err = errors.Join(err, *errptr) }; return err`. -/
def certsFromCommandWait (waitErr procErr : Option GoErr) : Option GoErr :=
  let w := wrapErr waitErr "waiting for cmd"
  match procErr with
  | some e => joinErrs w (some e)
  | none => w

/-- The `newLatest` computation of one poll iteration of the certs-package
`Times` goroutine: the certificate file's modification time, replaced by
the key file's when the former `.Before` the latter — i.e. their maximum. -/
def timesNewLatest (certT keyT : GoTime) : GoTime :=
  if certT < keyT then keyT else certT

/-- One poll iteration of the certs-package `Times` goroutine (certs.go),
as a function of the retained `latest` state and the two freshly probed
modification times: it emits a timestamp on the channel (first component
`true`) precisely when `latest.Before(newLatest)`, updating `latest`. -/
def timesStep (latest certT keyT : GoTime) : Bool × GoTime :=
  let newLatest := timesNewLatest certT keyT
  if latest < newLatest then (true, newLatest) else (false, latest)

/-- `chkEvents` distributes over concatenation, threading the live count. -/
theorem chkEvents_append (l1 l2 : List Ev) : ∀ k,
    chkEvents k (l1 ++ l2) = (chkEvents k l1 && chkEvents (liveCount k l1) l2) := by
  induction l1 with
  | nil => intro k; simp [chkEvents, liveCount]
  | cons e rest ih =>
      intro k
      cases e with
      | cancelOld => simp [chkEvents, liveCount, ih, Bool.and_assoc]
      | loadCall =>
          by_cases hk : k = 0
          · subst hk; simp [chkEvents, liveCount, ih, Bool.and_assoc]
          · simp [chkEvents, hk]
      | start c =>
          by_cases hk : k = 0
          · subst hk; simp [chkEvents, liveCount, ih, Bool.and_assoc]
          · simp [chkEvents, hk]
      | recvDrain r p =>
          by_cases hk : k = 1
          · subst hk; simp [chkEvents, liveCount, ih, Bool.and_assoc]
          · simp [chkEvents, hk]
      | recvSel r =>
          by_cases hk : k = 1
          · subst hk; simp [chkEvents, liveCount, ih, Bool.and_assoc]
          · simp [chkEvents, hk]

/-- `runSelect` emits a discipline-respecting event list. -/
theorem chkEvents_runSelect (st : RunState) (it : Iter) :
    chkEvents st.cnt (runSelect st it).1 = true := by
  obtain ⟨lastp, live⟩ := st
  cases h : it.sel <;> cases live <;> simp [runSelect, h, chkEvents, RunState.cnt]

/-- `runSelect` continues the loop only with the state it was given, having
emitted no events. -/
theorem runSelect_cont (st : RunState) (it : Iter) (st2 : RunState)
    (h : (runSelect st it).2 = StepRes.cont st2) :
    st2 = st ∧ (runSelect st it).1 = [] := by
  cases hs : it.sel with
  | ctxDone => simp [runSelect, hs] at h
  | tick => simp [runSelect, hs] at h; exact ⟨h.symm, by simp [runSelect, hs]⟩
  | fDone r =>
      by_cases hl : st.live
      · simp [runSelect, hs, hl] at h
      · simp [runSelect, hs, hl] at h
        exact ⟨h.symm, by simp [runSelect, hs, hl]⟩

/-- `loadAndStart` emits a discipline-respecting event list from live
count 0. -/
theorem chkEvents_loadAndStart (next : timePair) (it : Iter) :
    chkEvents 0 (loadAndStart next it).1 = true := by
  cases hl : it.load with
  | error e => simp [loadAndStart, hl, chkEvents]
  | ok c =>
      have h := chkEvents_runSelect { last := next, live := true } it
      simp [RunState.cnt] at h
      simp [loadAndStart, hl, chkEvents, h]

/-- When `loadAndStart` continues the loop, the new state has `last = next`
with a live invocation, and the emitted events leave one invocation live. -/
theorem loadAndStart_cont (next : timePair) (it : Iter) (st2 : RunState)
    (h : (loadAndStart next it).2 = StepRes.cont st2) :
    st2 = { last := next, live := true } ∧
      liveCount 0 (loadAndStart next it).1 = 1 := by
  cases hl : it.load with
  | error e => simp [loadAndStart, hl] at h
  | ok c =>
      simp only [loadAndStart, hl] at h ⊢
      have hsel := runSelect_cont { last := next, live := true } it st2 h
      refine ⟨hsel.1, ?_⟩
      simp [liveCount, hsel.2]

/-- Each `Run` iteration emits a discipline-respecting event list. -/
theorem chkEvents_runStep (st : RunState) (it : Iter) :
    chkEvents st.cnt (runStep st it).1 = true := by
  cases hp : it.probe with
  | error e => simp [runStep, hp, chkEvents]
  | ok next =>
      by_cases he : next.equal st.last
      · simpa [runStep, hp, he] using chkEvents_runSelect st it
      · by_cases hl : st.live
        · have hcnt : st.cnt = 1 := by simp [RunState.cnt, hl]
          cases hd : it.drainResult with
          | some e =>
              by_cases hc : (!e.isCanceled || it.ctxDoneAtDrain) = true
              · simp [runStep, hp, he, hl, hd, hc, chkEvents, hcnt]
              · simp [runStep, hp, he, hl, hd, hc, chkEvents, hcnt,
                  chkEvents_loadAndStart]
          | none =>
              simp [runStep, hp, he, hl, hd, chkEvents, hcnt,
                chkEvents_loadAndStart]
        · have hcnt : st.cnt = 0 := by simp [RunState.cnt, hl]
          simp [runStep, hp, he, hl, hcnt, chkEvents_loadAndStart]

/-- When a `Run` iteration continues the loop, the live count after its
events equals the new state's live count. -/
theorem liveCount_runStep (st : RunState) (it : Iter) (st2 : RunState)
    (h : (runStep st it).2 = StepRes.cont st2) :
    liveCount st.cnt (runStep st it).1 = st2.cnt := by
  cases hp : it.probe with
  | error e => simp [runStep, hp] at h
  | ok next =>
      by_cases he : next.equal st.last
      · have h2 : (runSelect st it).2 = StepRes.cont st2 := by
          simpa [runStep, hp, he] using h
        have hsel := runSelect_cont st it st2 h2
        simp [runStep, hp, he, hsel.2, liveCount, hsel.1]
      · by_cases hl : st.live
        · have hcnt : st.cnt = 1 := by simp [RunState.cnt, hl]
          cases hd : it.drainResult with
          | some e =>
              by_cases hc : (!e.isCanceled || it.ctxDoneAtDrain) = true
              · simp [runStep, hp, he, hl, hd, hc] at h
              · have h2 : (loadAndStart next it).2 = StepRes.cont st2 := by
                  simpa [runStep, hp, he, hl, hd, hc] using h
                have hlas := loadAndStart_cont next it st2 h2
                simp [runStep, hp, he, hl, hd, hc, hcnt, liveCount, hlas.2,
                  hlas.1, RunState.cnt]
          | none =>
              have h2 : (loadAndStart next it).2 = StepRes.cont st2 := by
                simpa [runStep, hp, he, hl, hd] using h
              have hlas := loadAndStart_cont next it st2 h2
              simp [runStep, hp, he, hl, hd, hcnt, liveCount, hlas.2,
                hlas.1, RunState.cnt]
        · have hcnt : st.cnt = 0 := by simp [RunState.cnt, hl]
          have h2 : (loadAndStart next it).2 = StepRes.cont st2 := by
            simpa [runStep, hp, he, hl] using h
          have hlas := loadAndStart_cont next it st2 h2
          simp [runStep, hp, he, hl, hcnt, hlas.2, hlas.1, RunState.cnt]

/-- The whole event trace of `Run` respects the single-flight discipline. -/
theorem chkEvents_runTrace (iters : List Iter) : ∀ st : RunState,
    chkEvents st.cnt (runTrace st iters).1 = true := by
  induction iters with
  | nil => intro st; simp [runTrace, chkEvents]
  | cons it rest ih =>
      intro st
      rcases hs : runStep st it with ⟨evs, res⟩
      cases res with
      | ret r =>
          have := chkEvents_runStep st it
          rw [hs] at this
          simp only [runTrace, hs]
          exact this
      | cont st2 =>
          have h1 := chkEvents_runStep st it
          rw [hs] at h1
          have h2 := liveCount_runStep st it st2 (by rw [hs])
          rw [hs] at h2
          simp only [runTrace, hs]
          rw [chkEvents_append, h1, h2, ih st2]
          rfl

/-- In a discipline-respecting trace with `k ≤ 1` invocations initially
live, every prefix has received at most `starts + k` completions, and
started at most one invocation more than it has seen complete. -/
theorem chkEvents_counts (l : List Ev) : ∀ k, chkEvents k l = true → k ≤ 1 →
    ∀ n, recvs (l.take n) ≤ starts (l.take n) + k ∧
      starts (l.take n) + k ≤ recvs (l.take n) + 1 := by
  induction l with
  | nil =>
      intro k _ hk n
      simp [starts, recvs]
      omega
  | cons e rest ih =>
      intro k hchk hk n
      cases n with
      | zero => simp [starts, recvs]; omega
      | succ m =>
          cases e with
          | cancelOld =>
              simp only [chkEvents] at hchk
              have := ih k hchk hk m
              simpa [starts, recvs, List.countP_cons] using this
          | loadCall =>
              simp only [chkEvents, Bool.and_eq_true, decide_eq_true_eq] at hchk
              obtain ⟨hk0, hchk⟩ := hchk
              subst hk0
              have := ih 0 hchk (by omega) m
              simpa [starts, recvs, List.countP_cons] using this
          | start c =>
              simp only [chkEvents, Bool.and_eq_true, decide_eq_true_eq] at hchk
              obtain ⟨hk0, hchk⟩ := hchk
              subst hk0
              have := ih 1 hchk (by omega) m
              simp [starts, recvs, List.countP_cons] at this ⊢
              omega
          | recvDrain r p =>
              simp only [chkEvents, Bool.and_eq_true, decide_eq_true_eq] at hchk
              obtain ⟨hk1, hchk⟩ := hchk
              subst hk1
              have := ih 0 hchk (by omega) m
              simp [starts, recvs, List.countP_cons] at this ⊢
              omega
          | recvSel r =>
              simp only [chkEvents, Bool.and_eq_true, decide_eq_true_eq] at hchk
              obtain ⟨hk1, hchk⟩ := hchk
              subst hk1
              have := ih 0 hchk (by omega) m
              simp [starts, recvs, List.countP_cons] at this ⊢
              omega

/-- In a discipline-respecting trace, at the position of every certificate
load and of every invocation start, the numbers of started and of
completed-and-consumed invocations balance (counting `k` initially live
invocations as already started). -/
theorem chkEvents_balanced_at (l : List Ev) : ∀ k, chkEvents k l = true →
    ∀ n e, l.get? n = some e → (e = Ev.loadCall ∨ ∃ c, e = Ev.start c) →
      starts (l.take n) + k = recvs (l.take n) := by
  induction l with
  | nil => intro k _ n e hget; simp [List.get?] at hget
  | cons hd rest ih =>
      intro k hchk n e hget hform
      cases n with
      | zero =>
          simp only [List.get?] at hget
          injection hget with hget
          subst hget
          rcases hform with h1 | ⟨c, h1⟩ <;> subst h1 <;>
            simp only [chkEvents, Bool.and_eq_true, decide_eq_true_eq] at hchk <;>
            simp [starts, recvs, hchk.1]
      | succ m =>
          cases hd with
          | cancelOld =>
              simp only [chkEvents] at hchk
              have := ih k hchk m e hget hform
              simpa [starts, recvs, List.countP_cons] using this
          | loadCall =>
              simp only [chkEvents, Bool.and_eq_true, decide_eq_true_eq] at hchk
              obtain ⟨hk0, hchk⟩ := hchk
              subst hk0
              have := ih 0 hchk m e hget hform
              simpa [starts, recvs, List.countP_cons] using this
          | start c =>
              simp only [chkEvents, Bool.and_eq_true, decide_eq_true_eq] at hchk
              obtain ⟨hk0, hchk⟩ := hchk
              subst hk0
              have := ih 1 hchk m e hget hform
              simp [starts, recvs, List.countP_cons] at this ⊢
              omega
          | recvDrain r p =>
              simp only [chkEvents, Bool.and_eq_true, decide_eq_true_eq] at hchk
              obtain ⟨hk1, hchk⟩ := hchk
              subst hk1
              have := ih 0 hchk m e hget hform
              simp [starts, recvs, List.countP_cons] at this ⊢
              omega
          | recvSel r =>
              simp only [chkEvents, Bool.and_eq_true, decide_eq_true_eq] at hchk
              obtain ⟨hk1, hchk⟩ := hchk
              subst hk1
              have := ih 0 hchk m e hget hform
              simp [starts, recvs, List.countP_cons] at this ⊢
              omega

/-- `errIs` finds its exact argument. -/
theorem errIs_self (e : GoErr) : errIs e e = true := by
  cases e <;> simp [errIs]

/-- A concrete first-change iteration environment: probed pair (1,1),
no live invocation involvement, successful load, ticker fires. -/
def iterFirst : Iter :=
  { probe := Except.ok { cert := 1, key := 1 }, drainResult := none,
    drainWasPending := false, ctxDoneAtDrain := false,
    load := Except.ok 0, sel := Sel.tick }

/-- A concrete coordinator state with a live invocation and last observed
pair (0,0). -/
def stLive : RunState := { last := { cert := 0, key := 0 }, live := true }

/-- A concrete change iteration whose drained completion result is nil,
the result having been pending before the preemption (the invocation
completed on its own), with the outer context alive. -/
def iterNilDrain : Iter :=
  { probe := Except.ok { cert := 1, key := 1 }, drainResult := none,
    drainWasPending := true, ctxDoneAtDrain := false,
    load := Except.ok 0, sel := Sel.tick }

/-- A concrete change iteration during which the outer context has ended by
the time the drained (nil) completion result is inspected. -/
def iterShutdownNilDrain : Iter :=
  { probe := Except.ok { cert := 1, key := 1 }, drainResult := none,
    drainWasPending := false, ctxDoneAtDrain := true,
    load := Except.ok 0, sel := Sel.ctxDone }

/-- A concrete change iteration during which the outer context has ended
and the drained completion result is the cancellation error. -/
def iterShutdownErrDrain : Iter :=
  { probe := Except.ok { cert := 1, key := 1 },
    drainResult := some GoErr.canceled,
    drainWasPending := false, ctxDoneAtDrain := true,
    load := Except.ok 0, sel := Sel.ctxDone }

/-- A concrete change iteration whose drained completion result is the
cancellation error of the preemption, outer context alive. -/
def iterCancelDrain : Iter :=
  { probe := Except.ok { cert := 1, key := 1 },
    drainResult := some GoErr.canceled,
    drainWasPending := false, ctxDoneAtDrain := false,
    load := Except.ok 0, sel := Sel.tick }

/-- A concrete no-change iteration at which the live invocation's natural
(nil) completion is observed by the select. -/
def iterNatDone : Iter :=
  { probe := Except.ok { cert := 0, key := 0 }, drainResult := none,
    drainWasPending := false, ctxDoneAtDrain := false,
    load := Except.ok 0, sel := Sel.fDone none }

/-- A concrete no-change iteration resolved by the ticker. -/
def iterNoop : Iter :=
  { probe := Except.ok { cert := 0, key := 0 }, drainResult := none,
    drainWasPending := false, ctxDoneAtDrain := false,
    load := Except.ok 0, sel := Sel.tick }

/-- A concrete iteration whose timestamp probe fails. -/
def iterProbeFail : Iter :=
  { probe := Except.error (GoErr.other 7), drainResult := none,
    drainWasPending := false, ctxDoneAtDrain := false,
    load := Except.ok 0, sel := Sel.tick }

/-- C1: in every execution of `Run`, at most one consumer invocation is
live at any instant — every prefix of the event trace has received at most
as many completion signals as it has started invocations, and started at
most one invocation more than it has received completions for — and a
certificate load or invocation start occurs only at points where every
started invocation's completion signal has been received and consumed
(`starts = recvs` exactly there), so invocation N+1 starts, and its
certificate is read from disk, only after invocation N's completion was
received. -/
theorem run_single_flight (iters : List Iter) (tr : List Ev)
    (htr : tr = (runTrace runInit iters).1) (n : Nat) :
    (recvs (tr.take n) ≤ starts (tr.take n) ∧
      starts (tr.take n) ≤ recvs (tr.take n) + 1) ∧
    (∀ e, tr.get? n = some e → (e = Ev.loadCall ∨ ∃ c, e = Ev.start c) →
      starts (tr.take n) = recvs (tr.take n)) := by
  have hchk : chkEvents 0 tr = true := by
    rw [htr]
    have h := chkEvents_runTrace iters runInit
    simpa [runInit, RunState.cnt] using h
  constructor
  · have h := chkEvents_counts tr 0 hchk (by omega) n
    omega
  · intro e hget hform
    have h := chkEvents_balanced_at tr 0 hchk n e hget hform
    omega

/-- Witness for C1: in the concrete trace of one first-change iteration,
`[loadCall, start 0]`, the start event at index 1 sits at a balanced point:
one completion received per invocation started before it. -/
theorem run_single_flight_witness :
    starts (((runTrace runInit [iterFirst]).1).take 1) =
      recvs (((runTrace runInit [iterFirst]).1).take 1) :=
  (run_single_flight [iterFirst] (runTrace runInit [iterFirst]).1 rfl 1).2
    (Ev.start 0) (by decide) (Or.inr ⟨0, rfl⟩)

/-- C2 as stated is false: on this concrete input the drained completion
result is nil — not the cancellation error corresponding to the preemption
just issued — and the outer context has not ended, yet `Run` discards the
result and proceeds to load the new certificate and start a fresh
invocation instead of returning the result. -/
theorem run_drain_swallow_nil_cex :
    iterNilDrain.drainResult = none ∧
    iterNilDrain.ctxDoneAtDrain = false ∧
    Ev.loadCall ∈ (runStep stLive iterNilDrain).1 ∧
    Ev.start 0 ∈ (runStep stLive iterNilDrain).1 ∧
    (runStep stLive iterNilDrain).2 =
      StepRes.cont { last := { cert := 1, key := 1 }, live := true } := by
  decide

/-- C2 amended: during Draining, `Run` discards the drained result and
proceeds to load the new certificate and start a fresh invocation iff that
result is nil, or it is an error satisfying
`errors.Is(err, context.Canceled)` while the outer context has not ended;
any non-cancellation error, and any error drained after the outer context
ended, is returned to the caller unchanged. -/
theorem run_drain_decision (st : RunState) (it : Iter) (next : timePair)
    (c : Cert) (hl : st.live = true) (hp : it.probe = Except.ok next)
    (he : next.equal st.last = false) (hload : it.load = Except.ok c) :
    (Ev.start c ∈ (runStep st it).1 ↔
      (it.drainResult = none ∨
        ∃ e, it.drainResult = some e ∧ e.isCanceled = true ∧
          it.ctxDoneAtDrain = false)) ∧
    (∀ e, it.drainResult = some e →
      (e.isCanceled = false ∨ it.ctxDoneAtDrain = true) →
      (runStep st it).2 = StepRes.ret (some e)) := by
  cases hd : it.drainResult with
  | none =>
      constructor
      · constructor
        · intro _
          exact Or.inl rfl
        · intro _
          simp [runStep, hp, he, hl, hd, loadAndStart, hload]
      · intro e hre
        cases hre
  | some e0 =>
      cases hcanc : e0.isCanceled with
      | false =>
          have hcond : (!e0.isCanceled || it.ctxDoneAtDrain) = true := by
            rw [hcanc]; simp
          refine ⟨⟨?_, ?_⟩, ?_⟩
          · intro hmem
            simp [runStep, hp, he, hl, hd, hcond] at hmem
          · rintro (h1 | ⟨e, he1, he2, he3⟩)
            · cases h1
            · injection he1 with he1
              subst he1
              rw [hcanc] at he2
              cases he2
          · intro e he1 _
            injection he1 with he1
            subst he1
            simp [runStep, hp, he, hl, hd, hcond]
      | true =>
          cases hdone : it.ctxDoneAtDrain with
          | false =>
              have hcond : (!e0.isCanceled || it.ctxDoneAtDrain) = false := by
                rw [hcanc, hdone]; simp
              refine ⟨⟨?_, ?_⟩, ?_⟩
              · intro _
                exact Or.inr ⟨e0, rfl, hcanc, rfl⟩
              · intro _
                simp [runStep, hp, he, hl, hd, hcond, loadAndStart, hload]
              · intro e he1 hor
                injection he1 with he1
                subst he1
                rcases hor with h1 | h1
                · rw [hcanc] at h1; cases h1
                · cases h1
          | true =>
              have hcond : (!e0.isCanceled || it.ctxDoneAtDrain) = true := by
                rw [hdone]; simp
              refine ⟨⟨?_, ?_⟩, ?_⟩
              · intro hmem
                simp [runStep, hp, he, hl, hd, hcond] at hmem
              · rintro (h1 | ⟨e, he1, he2, he3⟩)
                · cases h1
                · cases he3
              · intro e he1 _
                injection he1 with he1
                subst he1
                simp [runStep, hp, he, hl, hd, hcond]

/-- Witness for C2 amended: with the drained result being exactly the
cancellation error and the outer context alive, `Run` starts the fresh
invocation. -/
theorem run_drain_decision_witness :
    Ev.start 0 ∈ (runStep stLive iterCancelDrain).1 :=
  (run_drain_decision stLive iterCancelDrain { cert := 1, key := 1 } 0
      rfl rfl (by decide) rfl).1.mpr
    (Or.inr ⟨GoErr.canceled, rfl, by decide, rfl⟩)

/-- C3 as stated is false: on this concrete input the invocation completed
on its own — its nil result was pending in the completion channel before
any preemption was issued — yet at the very next observation of that
completion (the drain receive of a change-detecting iteration) `Run` does
not terminate: it starts a fresh invocation and continues looping. -/
theorem run_natural_completion_cex :
    Ev.recvDrain none true ∈ (runStep stLive iterNilDrain).1 ∧
    Ev.start 0 ∈ (runStep stLive iterNilDrain).1 ∧
    (runStep stLive iterNilDrain).2 =
      StepRes.cont { last := { cert := 1, key := 1 }, live := true } := by
  decide

/-- C3 amended: if the consumer invocation completes on its own without
having been preempted and the completion is observed at the select of an
iteration detecting no directory change, `Run` terminates at that very
observation and returns the consumer's result unchanged, whether it is an
error or nil. -/
theorem run_natural_completion_terminal (st : RunState) (it : Iter)
    (next : timePair) (r : Option GoErr) (hl : st.live = true)
    (hp : it.probe = Except.ok next) (he : next.equal st.last = true)
    (hs : it.sel = Sel.fDone r) :
    runStep st it = ([Ev.recvSel r], StepRes.ret r) := by
  simp [runStep, hp, he, runSelect, hs, hl]

/-- Witness for C3 amended: a nil natural completion observed at a
no-change iteration makes `Run` return nil at once. -/
theorem run_natural_completion_terminal_witness :
    runStep stLive iterNatDone = ([Ev.recvSel none], StepRes.ret none) :=
  run_natural_completion_terminal stLive iterNatDone { cert := 0, key := 0 }
    none rfl rfl (by decide) rfl

/-- C4: a failed timestamp probe makes `Run` return at once with the
failure wrapped as "checking directory", before any load or invocation
start, ignoring the whole remaining schedule (no retry); a failed
certificate load after a detected change likewise ends the run with the
failure wrapped with the load operation, with no invocation started and
the rest of the schedule ignored. -/
theorem run_failures_fatal (st : RunState) (it : Iter) (rest : List Iter) :
    (∀ e, it.probe = Except.error e →
      runTrace st (it :: rest) = ([], some (some (wrapChk e)))) ∧
    (∀ e next, it.probe = Except.ok next → next.equal st.last = false →
      it.load = Except.error e →
      (st.live = true →
        it.drainResult = none ∨
          ∃ r, it.drainResult = some r ∧ r.isCanceled = true ∧
            it.ctxDoneAtDrain = false) →
      runTrace st (it :: rest) =
        ((if st.live then
            [Ev.cancelOld, Ev.recvDrain it.drainResult it.drainWasPending]
          else []) ++ [Ev.loadCall], some (some (wrapLoad e)))) := by
  constructor
  · intro e hp
    simp [runTrace, runStep, hp]
  · intro e next hp he hload hdrain
    by_cases hl : st.live
    · rcases hdrain hl with hnone | ⟨r, hr, hc, hd⟩
      · simp [runTrace, runStep, hp, he, hl, hnone, loadAndStart, hload]
      · simp [runTrace, runStep, hp, he, hl, hr, hc, hd, loadAndStart, hload]
    · simp [runTrace, runStep, hp, he, hl, loadAndStart, hload]

/-- Witness for C4: a concrete failing probe ends the run immediately with
the wrapped stat failure and an empty event trace, whatever the remaining
schedule held. -/
theorem run_failures_fatal_witness :
    runTrace runInit [iterProbeFail, iterFirst] =
      ([], some (some (wrapChk (GoErr.other 7)))) :=
  (run_failures_fatal runInit iterProbeFail [iterFirst]).1 (GoErr.other 7) rfl

/-- C6 as stated is false: on this concrete input the outer shutdown has
fired while `Run` is Draining (the old invocation was cancelled and its
nil completion consumed, the new invocation not yet started), yet `Run`
starts the pending new invocation anyway. -/
theorem run_shutdown_draining_cex :
    iterShutdownNilDrain.ctxDoneAtDrain = true ∧
    Ev.start 0 ∈ (runStep stLive iterShutdownNilDrain).1 := by
  decide

/-- C6 amended: if the outer shutdown signal has fired by the time `Run`
inspects the drained invocation's completion result and that result is a
non-nil error, `Run` terminates returning that error (for a consumer that
honours the preemption, its cancellation error) and never starts the
pending new invocation; a nil drained result, by contrast, still leads to
the pending invocation being started despite the shutdown. -/
theorem run_shutdown_draining (st : RunState) (it : Iter) (next : timePair)
    (e : GoErr) (hl : st.live = true) (hp : it.probe = Except.ok next)
    (he : next.equal st.last = false) (hd : it.drainResult = some e)
    (hc : it.ctxDoneAtDrain = true) :
    runStep st it =
      ([Ev.cancelOld, Ev.recvDrain (some e) it.drainWasPending],
       StepRes.ret (some e)) := by
  simp [runStep, hp, he, hl, hd, hc]

/-- Witness for C6 amended: shutdown during draining with the consumer's
cancellation error terminates the run without starting anything. -/
theorem run_shutdown_draining_witness :
    runStep stLive iterShutdownErrDrain =
      ([Ev.cancelOld, Ev.recvDrain (some GoErr.canceled) false],
       StepRes.ret (some GoErr.canceled)) :=
  run_shutdown_draining stLive iterShutdownErrDrain { cert := 1, key := 1 }
    GoErr.canceled rfl rfl (by decide) rfl rfl

/-- C8: a tick at which the probed timestamp pair equals the last observed
one performs no certificate load, starts no new invocation, and leaves the
coordinator state — in particular the last-observed pair — unchanged. -/
theorem run_noop_tick (st : RunState) (it : Iter) (next : timePair)
    (hp : it.probe = Except.ok next) (he : next.equal st.last = true) :
    Ev.loadCall ∉ (runStep st it).1 ∧ (∀ c, Ev.start c ∉ (runStep st it).1) ∧
    (∀ st2, (runStep st it).2 = StepRes.cont st2 → st2 = st) := by
  have hstep : runStep st it = runSelect st it := by
    simp [runStep, hp, he]
  rw [hstep]
  cases hs : it.sel with
  | ctxDone => simp [runSelect, hs]
  | tick =>
      refine ⟨by simp [runSelect, hs], by simp [runSelect, hs], ?_⟩
      intro st2 h
      simp [runSelect, hs] at h
      exact h.symm
  | fDone r =>
      by_cases hliv : st.live
      · simp [runSelect, hs, hliv]
      · refine ⟨by simp [runSelect, hs, hliv], by simp [runSelect, hs, hliv], ?_⟩
        intro st2 h
        simp [runSelect, hs, hliv] at h
        exact h.symm

/-- Witness for C8: a concrete unchanged-pair tick loads nothing. -/
theorem run_noop_tick_witness :
    Ev.loadCall ∉ (runStep runInit iterNoop).1 :=
  (run_noop_tick runInit iterNoop { cert := 0, key := 0 } rfl (by decide)).1

/-- C10: when the preempted invocation's drained completion result is the
explicit no-error value (nil) and the outer context has not ended, `Run`
swallows the result and proceeds to load the new certificate and start a
fresh invocation — unlike an un-preempted nil return observed at the
select, which is terminal. -/
theorem run_nil_drain_swallowed (st : RunState) (it : Iter) (next : timePair)
    (c : Cert) (hl : st.live = true) (hp : it.probe = Except.ok next)
    (he : next.equal st.last = false) (hd : it.drainResult = none)
    (_hout : it.ctxDoneAtDrain = false) (hload : it.load = Except.ok c) :
    Ev.loadCall ∈ (runStep st it).1 ∧ Ev.start c ∈ (runStep st it).1 ∧
    (it.sel = Sel.tick → (runStep st it).2 =
      StepRes.cont { last := next, live := true }) := by
  refine ⟨?_, ?_, ?_⟩
  · simp [runStep, hp, he, hl, hd, loadAndStart, hload]
  · simp [runStep, hp, he, hl, hd, loadAndStart, hload]
  · intro hs
    simp [runStep, hp, he, hl, hd, loadAndStart, hload, runSelect, hs]

/-- Witness for C10: the concrete nil-drain change iteration loads and
starts a fresh invocation. -/
theorem run_nil_drain_swallowed_witness :
    Ev.loadCall ∈ (runStep stLive iterNilDrain).1 :=
  (run_nil_drain_swallowed stLive iterNilDrain { cert := 1, key := 1 } 0
      rfl rfl (by decide) rfl rfl rfl).1

/-- C5 as stated is false for the certs-package `Times` variant: after
observing modification times (5, 4) — emitting 5, its running maximum — a
subsequent probe of (3, 4) differs from the previous pair component-wise
(the certificate timestamp moved to an earlier value), so the claim
requires a change to be reported, yet `Times` emits nothing and its state
is unchanged: the comparison is an ordering test, not an equality test. -/
theorem change_detection_cex :
    timesStep 0 5 4 = (true, 5) ∧
    timePair.equal { cert := 5, key := 4 } { cert := 3, key := 4 } = false ∧
    timesStep 5 3 4 = (false, 5) := by
  decide

/-- C5 amended: the coordinator `Run` (and the certdir `FromDir` variant)
detect change by component-wise equality of the timestamp pair — `equal` is
false exactly when either component differs, so even an earlier timestamp
is a change there; the certs-package `Times` variant instead emits exactly
when the maximum of the two probed times strictly exceeds its retained
`latest`, an ordering comparison under which an earlier or equal timestamp
is not reported. -/
theorem change_detection (p q : timePair) (latest c k : GoTime) :
    (timePair.equal p q = false ↔ (p.cert ≠ q.cert ∨ p.key ≠ q.key)) ∧
    ((timesStep latest c k).1 = true ↔ latest < timesNewLatest c k) := by
  constructor
  · rw [show (timePair.equal p q = false) ↔ ¬(timePair.equal p q = true) by simp]
    simp [timePair.equal]
    tauto
  · unfold timesStep
    by_cases h : latest < timesNewLatest c k
    · simp [h]
    · simp [h]

/-- C7: on the failing input — outer context cancelled, directory probe
succeeding with unchanged timestamps — the certdir `FromDir` goroutine's
loop body records the cancellation in `*errptr` but continues the loop
instead of returning: the goroutine keeps running after external shutdown
and the deferred `close(ch)` never executes, contradicting both the claim
and the function's own documentation. -/
theorem fromDir_cancel_no_exit :
    fromDirStep { lastCertTime := 0, lastKeyTime := 0 }
        { times := Except.ok (0, 0), readCert := Except.ok 0,
          readKey := Except.ok 0, keyPair := Except.ok 0,
          sendCtxDone := true, timerCtxDone := true } =
      (some GoErr.canceled,
        FromDirRes.cont { lastCertTime := 0, lastKeyTime := 0 }) := by
  decide

/-- C9 as stated is false for the certdir-package variant: with a
subprocess exit error and a recorded JSON-decode processing error, the
release function returns only the processing error — the subprocess's exit
status is not propagated alongside it. -/
theorem fromCommand_wait_cex :
    fromCommandWait (some (GoErr.other 1))
        (some (GoErr.wrap "decoding JSON" (GoErr.other 2))) =
      some (GoErr.wrap "decoding JSON" (GoErr.other 2)) ∧
    errIs (GoErr.wrap "decoding JSON" (GoErr.other 2)) (GoErr.other 1) =
      false := by
  decide

/-- C9 amended: a JSON-decode or key-pair-parse failure terminates the
producing goroutine with that error, wrapped; the certs-package release
function joins the subprocess's (wrapped) exit error with the recorded
processing error, so both propagate, while the certdir-package release
function returns the processing error alone whenever one was recorded,
surfacing the exit status only otherwise. -/
theorem fromCommand_release (it : FCIter) (we pe : GoErr) (w : Option GoErr) :
    (∀ e, it.decode = Except.error e →
      fromCommandStep it = FCRes.ret (some (GoErr.wrap "decoding JSON" e))) ∧
    (∀ e d, it.decode = Except.ok d → it.keyPair = Except.error e →
      fromCommandStep it =
        FCRes.ret (some (GoErr.wrap "creating key pair" e))) ∧
    (certsFromCommandWait (some we) (some pe) =
        some (GoErr.joinErr (GoErr.wrap "waiting for cmd" we) pe) ∧
      errIs (GoErr.joinErr (GoErr.wrap "waiting for cmd" we) pe) we = true ∧
      errIs (GoErr.joinErr (GoErr.wrap "waiting for cmd" we) pe) pe = true) ∧
    (fromCommandWait w (some pe) = some pe ∧ fromCommandWait w none = w) := by
  refine ⟨?_, ?_, ⟨?_, ?_, ?_⟩, rfl, rfl⟩
  · intro e hdec
    simp [fromCommandStep, hdec]
  · intro e d hdec hkp
    simp [fromCommandStep, hdec, hkp]
  · simp [certsFromCommandWait, wrapErr, joinErrs]
  · simp [errIs, errIs_self]
  · simp [errIs, errIs_self]

/-- A concrete `FromCommand` iteration whose JSON decode fails. -/
def itDecodeFail : FCIter :=
  { decode := Except.error (GoErr.other 9), keyPair := Except.ok 0,
    ctxDone := false }

/-- Witness for C9 amended: a concrete decode failure stops the goroutine
with the wrapped decode error. -/
theorem fromCommand_release_witness :
    fromCommandStep itDecodeFail =
      FCRes.ret (some (GoErr.wrap "decoding JSON" (GoErr.other 9))) :=
  (fromCommand_release itDecodeFail (GoErr.other 1) (GoErr.other 2) none).1
    (GoErr.other 9) rfl

end Certdir
